import Mathlib

/-!
Verification development for the Qingping (Cleargrass) cloud API client
(`scripts/qingping_client.py`).  The client's string handling, token cache,
token-exchange flow, authenticated request dispatch (including the 401
handling of `_handle_response`) and the settings validator are embedded as
executable Lean definitions, and the behavioural claims about them are settled
as theorems below the definitions.

Modelling conventions:
* Python strings are `List Char` (`PyStr`); byte strings are `List Nat`.
* Machine integers do not occur; Python's unbounded `int` is `Int`.
* Time is an external input: `int(time.time())` is a parameter `now : Int`
  held fixed during one call chain.
* JSON numbers are modelled as integers (no claim involves fractions).
* The HTTP world is an oracle: scripted response lists for the resource host
  and the OAuth host, consumed in order; every `conn.request` is recorded
  (resource requests in a trace with the bearer token attached, token-exchange
  requests as a counter).
-/

/-- Python strings, embedded as lists of characters. -/
abbrev PyStr := List Char

/-- The characters Python's `str.strip()` with no argument (and `int()`)
removes: CPython's Unicode whitespace set (`Py_UNICODE_ISSPACE`):
U+0009–U+000D, U+001C–U+001F, the space, NEL U+0085, NBSP U+00A0, U+1680,
U+2000–U+200A, U+2028, U+2029, U+202F, U+205F and U+3000. -/
def pyWs (c : Char) : Bool :=
  (9 ≤ c.toNat && c.toNat ≤ 13) || (28 ≤ c.toNat && c.toNat ≤ 31) ||
  c.toNat = 32 || c.toNat = 133 || c.toNat = 160 || c.toNat = 5760 ||
  (8192 ≤ c.toNat && c.toNat ≤ 8202) || c.toNat = 8232 || c.toNat = 8233 ||
  c.toNat = 8239 || c.toNat = 8287 || c.toNat = 12288

/-- Python `str.strip()`: drop leading and trailing whitespace. -/
def pyStrip (l : PyStr) : PyStr :=
  ((l.dropWhile pyWs).reverse.dropWhile pyWs).reverse

/-- Worker for `pySplit`: accumulates the current field (reversed). -/
def pySplitAux (sep : Char) : PyStr → PyStr → List PyStr
  | [], acc => [acc.reverse]
  | c :: rest, acc =>
    if c = sep then acc.reverse :: pySplitAux sep rest []
    else pySplitAux sep rest (c :: acc)

/-- Python `str.split(sep)` for a one-character separator: splits on every
occurrence, and the split of the empty string is `[""]`. -/
def pySplit (sep : Char) (l : PyStr) : List PyStr :=
  pySplitAux sep l []

/-- Universal-newline translation performed by `open(path, 'r')` in text mode:
`"\r\n"` and a lone `"\r"` both become `"\n"`. -/
def normalizeNewlines : PyStr → PyStr
  | [] => []
  | [c] => if c = '\r' then ['\n'] else [c]
  | c :: c2 :: rest =>
    if c = '\r' then
      if c2 = '\n' then '\n' :: normalizeNewlines rest
      else '\n' :: normalizeNewlines (c2 :: rest)
    else c :: normalizeNewlines (c2 :: rest)

/-- The ASCII character of a decimal digit. -/
def digitCh (d : Nat) : Char := Char.ofNat (48 + d)

/-- Decimal digits of a natural number, with explicit fuel so the definition
is structurally recursive (and hence reduces inside the kernel). -/
def natDigitsAux (fuel : Nat) (n : Nat) : PyStr :=
  match fuel with
  | 0 => []
  | f + 1 =>
    if n < 10 then [digitCh n]
    else natDigitsAux f (n / 10) ++ [digitCh (n % 10)]

/-- Decimal digits of a natural number, most significant first. -/
def natDigits (n : Nat) : PyStr := natDigitsAux (n + 1) n

/-- Python `str(i)` for an integer: decimal digits with a leading minus sign
for negative values. -/
def intChars (i : Int) : PyStr :=
  if i < 0 then '-' :: natDigits (-i).toNat else natDigits i.toNat

/-- Worker for `digitsParse`.  `acc` is the value of the digits consumed so
far; an underscore is accepted only between two digits, mirroring the digit
grammar of Python's `int()`. -/
def digitsParseAux (acc : Nat) : PyStr → Option Nat
  | [] => some acc
  | c :: rest =>
    if c = '_' then
      match rest with
      | c2 :: rest2 =>
        if c2.isDigit then digitsParseAux (acc * 10 + (c2.toNat - 48)) rest2
        else none
      | [] => none
    else if c.isDigit then digitsParseAux (acc * 10 + (c.toNat - 48)) rest
    else none

/-- Parse a nonempty run of decimal digits (with Python's underscore rule);
rejects the empty string and a leading underscore. -/
def digitsParse : PyStr → Option Nat
  | [] => none
  | c :: rest =>
    if c = '_' then none
    else if c.isDigit then digitsParseAux (c.toNat - 48) rest
    else none

/-- Python `int(s)`: strips surrounding whitespace, accepts an optional sign,
then a nonempty digit run; everything else raises `ValueError`, modelled as
`none`. -/
def pyIntParse (l : PyStr) : Option Int :=
  match pyStrip l with
  | [] => none
  | c :: rest =>
    if c = '-' then (digitsParse rest).map (fun n => -(Int.ofNat n))
    else if c = '+' then (digitsParse rest).map (fun n => Int.ofNat n)
    else (digitsParse (c :: rest)).map (fun n => Int.ofNat n)

/-- The loop body of `QingpingClient._read_token_from_cache`: for each line,
`line.strip().split(':')` must yield exactly two fields, the first must parse
as an integer, and the token is returned only when that expiry is strictly in
the future; each failure (caught `ValueError`) falls through to the next
line. -/
def readLoop (now : Int) : List PyStr → Option PyStr
  | [] => none
  | line :: rest =>
    match pySplit ':' (pyStrip line) with
    | [e, t] =>
      match pyIntParse e with
      | some expiredAt => if now < expiredAt then some t else readLoop now rest
      | none => readLoop now rest
    | _ => readLoop now rest

/-- `QingpingClient._read_token_from_cache`, over the decoded text of the
cache file (`none` models a missing file).  `readlines` is modelled as
universal-newline translation followed by splitting on a newline; the extra
empty final line this produces for terminator-ended files fails the two-field
unpacking exactly like Python's empty trailing read. -/
def read_token_from_cache (now : Int) (cache : Option PyStr) : Option PyStr :=
  match cache with
  | none => none
  | some content => readLoop now (pySplit '\n' (normalizeNewlines content))

/-- `QingpingClient._save_token_to_cache`: the file content written,
namely the record produced by the f-string interpolation of
the expiry and the token into the colon-separated format. -/
def save_token_to_cache (access_token : PyStr) (expired_at_time : Int) : PyStr :=
  intChars expired_at_time ++ ':' :: access_token

example : read_token_from_cache 0 (some (save_token_to_cache "tok".toList 10)) =
    some "tok".toList := by decide
example : read_token_from_cache 10 (some (save_token_to_cache "tok".toList 10)) = none := by
  decide
example : read_token_from_cache 0 (some "garbage".toList) = none := by decide
example : read_token_from_cache 0 (some "abc:tok".toList) = none := by decide
example : read_token_from_cache 0 (some (save_token_to_cache "a:b".toList 10)) = none := by
  decide
example : read_token_from_cache 0 (some (save_token_to_cache ['x', '\xA0'] 10)) =
    some ['x'] := by decide
example : read_token_from_cache 0 (some (save_token_to_cache [' ', 'x'] 10)) =
    some [' ', 'x'] := by decide

/-- Is this byte a UTF-8 continuation byte (`0x80`–`0xBF`)? -/
def contByte (b : Nat) : Bool := 128 ≤ b && b ≤ 191

/-- Strict UTF-8 decoding of a byte sequence, as performed by Python's
`utf-8` codec when a cache file is opened in text mode: rejects truncated
sequences, stray continuation bytes, overlong encodings, surrogates and
code points above `U+10FFFF`; `none` models `UnicodeDecodeError`. -/
def utf8Decode : List Nat → Option PyStr
  | [] => some []
  | b :: rest =>
    if b ≤ 127 then
      match utf8Decode rest with
      | some cs => some (Char.ofNat b :: cs)
      | none => none
    else if 194 ≤ b && b ≤ 223 then
      match rest with
      | b2 :: rest2 =>
        if contByte b2 then
          match utf8Decode rest2 with
          | some cs => some (Char.ofNat ((b - 192) * 64 + (b2 - 128)) :: cs)
          | none => none
        else none
      | [] => none
    else if 224 ≤ b && b ≤ 239 then
      match rest with
      | b2 :: b3 :: rest3 =>
        if (if b = 224 then 160 ≤ b2 && b2 ≤ 191
            else if b = 237 then 128 ≤ b2 && b2 ≤ 159
            else contByte b2) && contByte b3 then
          match utf8Decode rest3 with
          | some cs =>
            some (Char.ofNat ((b - 224) * 4096 + (b2 - 128) * 64 + (b3 - 128)) :: cs)
          | none => none
        else none
      | _ => none
    else if 240 ≤ b && b ≤ 244 then
      match rest with
      | b2 :: b3 :: b4 :: rest4 =>
        if (if b = 240 then 144 ≤ b2 && b2 ≤ 191
            else if b = 244 then 128 ≤ b2 && b2 ≤ 143
            else contByte b2) && contByte b3 && contByte b4 then
          match utf8Decode rest4 with
          | some cs =>
            some (Char.ofNat
              ((b - 240) * 262144 + (b2 - 128) * 4096 + (b3 - 128) * 64 + (b4 - 128)) :: cs)
          | none => none
        else none
      | _ => none
    else none

/-- The failure modes of the client, one constructor per raise site of
`qingping_client.py` (the source raises untyped `Exception`/errors with
distinguishing messages; the constructors name those sites):
* `apiError s`          — `"API request failed. Status: {s}"`;
* `dataErrorContentType`— `"Unexpected Content-Type: {ct}"`;
* `dataErrorDecode`     — `"Failed to decode JSON response: {e}"`;
* `authErrorTokenFormat`— `"Invalid token response format"`;
* `keyError`/`typeError`— the corresponding Python built-in exceptions;
* `unicodeDecodeError`  — undecodable bytes in a text-mode file read;
* `outOfResponses`      — the client sent a request for which the response
  oracle has no scripted answer (the experiment's horizon, not a source path);
* `fuelExhausted`       — the recursion-depth bound of the embedding was hit
  (the source's recursion is unbounded);
* `unmodelled`          — a corner outside the embedding (a non-string
  `access_token` value in a token response; no claim exercises it). -/
inductive ClientError where
  | apiError (status : Int)
  | dataErrorContentType (contentType : String)
  | dataErrorDecode
  | authErrorTokenFormat
  | keyError (key : String)
  | typeError
  | unicodeDecodeError
  | outOfResponses
  | fuelExhausted
  | unmodelled
deriving Repr, DecidableEq

/-- Byte-level `_read_token_from_cache`: `open(path, 'r')` under the default
UTF-8 locale decodes the file's bytes before any line is inspected; the
decode failure (`UnicodeDecodeError`, a `ValueError` that is raised by
`readlines`, outside the inner `except (ValueError, IndexError)` and not an
`IOError`) escapes the function uncaught. -/
def read_token_from_cache_bytes (now : Int) (fileBytes : List Nat) :
    Except ClientError (Option PyStr) :=
  match utf8Decode fileBytes with
  | none => .error .unicodeDecodeError
  | some content => .ok (read_token_from_cache now (some content))

/-- JSON values as decoded by `json.loads`; numbers are modelled as integers
(no claim involves fractional values), objects as field lists in document
order. -/
inductive Json where
  | null
  | bool (b : Bool)
  | num (n : Int)
  | str (s : String)
  | arr (elems : List Json)
  | obj (fields : List (String × Json))

/-- Field lookup in a decoded JSON object.  `json.loads` builds a `dict` in
which a duplicated key keeps the last occurrence, so the lookup prefers the
rightmost binding. -/
def jlookup (key : String) : List (String × Json) → Option Json
  | [] => none
  | (k, v) :: rest =>
    match jlookup key rest with
    | some v' => some v'
    | none => if key = k then some v else none

/-- Is the needle a contiguous sublist of the haystack? -/
def listInfix (needle : PyStr) : PyStr → Bool
  | [] => needle.isEmpty
  | c :: rest => List.isPrefixOf needle (c :: rest) || listInfix needle rest

/-- Python's `key in value` for a decoded JSON value: key containment for a
dict, element equality for a list, substring for a string, and `TypeError`
for the remaining types. -/
def pyIn (key : String) : Json → Except ClientError Bool
  | .obj fields => .ok (jlookup key fields).isSome
  | .arr elems => .ok (elems.any fun j => match j with | .str s => decide (key = s) | _ => false)
  | .str s => .ok (listInfix key.toList s.toList)
  | _ => .error .typeError

/-- Python's `value[key]` for a decoded JSON value: dict lookup (raising
`KeyError` when absent), `TypeError` on a non-dict. -/
def pyGetItem (j : Json) (key : String) : Except ClientError Json :=
  match j with
  | .obj fields =>
    match jlookup key fields with
    | some v => .ok v
    | none => .error (.keyError key)
  | _ => .error .typeError

/-- `int(time.time()) + response['expires_in']`: integer addition, with
Python's bool-as-int coercion; any other operand type raises `TypeError`. -/
def pyAddTime (now : Int) : Json → Except ClientError Int
  | .num n => .ok (now + n)
  | .bool b => .ok (now + (if b then 1 else 0))
  | _ => .error .typeError

/-- Python truthiness of `self._access_token` (`None` or a string): falsy
when absent or empty. -/
def pyFalsyOpt : Option PyStr → Bool
  | none => true
  | some s => s.isEmpty

/-- An HTTP response as the client observes it: the status code, the
`Content-Type` header (`none` when absent) and the decoded JSON body
(`none` models a body `json.loads` rejects). -/
structure Response where
  status : Int
  contentType : Option String
  body : Option Json

/-- One `conn.request` on the resource host, as recorded by the oracle:
method, path, the bearer token attached in the `Authorization` header, and
the JSON payload (prior to `json.dumps` serialization). -/
structure ApiCall where
  method : String
  path : String
  bearer : PyStr
  payload : Option Json

/-- The client's mutable state plus the response oracle:
* `access_token` — `self._access_token`;
* `cache` — the content of the token cache file (`none`: missing file);
* `apiResponses`/`oauthResponses` — scripted responses for the resource host
  and the OAuth host, consumed in order;
* `apiCalls` — every request sent to the resource host, in order;
* `oauthCalls` — how many token-exchange POSTs have been sent. -/
structure World where
  access_token : Option PyStr
  cache : Option PyStr
  apiResponses : List Response
  oauthResponses : List Response
  apiCalls : List ApiCall
  oauthCalls : Nat

/-- The operations of the client's mutually recursive call cycle
(`get_devices` → `_make_api_request` → `_ensure_valid_token` →
`_fetch_new_token` → `_handle_response` → `get_devices`). -/
inductive Op where
  | opGetDevices
  | opMakeApiRequest (method : String) (path : String) (payload : Option Json)
  | opHandleResponse (r : Response)
  | opEnsureValidToken
  | opFetchNewToken

/-- Result of one operation: a JSON value for the request/response
operations, a token string for `_ensure_valid_token`. -/
inductive OpResult where
  | jsonRes (j : Json)
  | tokRes (t : PyStr)

/-- The client's request/retry cycle, one dispatcher for the five mutually
recursive methods so that the recursion is structural in the fuel (the
source's 401 recursion has no bound; `fuelExhausted` marks where the bound of
the embedding, not of the source, was reached).  Branch by branch this is a
literal transcription of `qingping_client.py`:
* `opGetDevices` — `get_devices`: delegates to `_make_api_request GET
  /v1/apis/devices`;
* `opMakeApiRequest` — `_make_api_request`: obtains a token via
  `_ensure_valid_token`, sends the request (recorded in `apiCalls`), and
  hands the oracle's response to `_handle_response`;
* `opHandleResponse` — `_handle_response`: 200 with a falsy content type is
  an empty-dict success, 200 with a non-JSON content type or an undecodable
  body raises, 401 clears `self._access_token` and calls `self.get_devices()`
  (whatever the original call was), anything else raises;
* `opEnsureValidToken` — `_ensure_valid_token`: falls back from the in-memory
  token to the cache, then to `_fetch_new_token`, storing
  `token_response['access_token']`;
* `opFetchNewToken` — `_fetch_new_token`: sends the token-exchange POST
  (counted in `oauthCalls`), runs the response through `_handle_response`,
  requires `access_token` and `expires_in`, computes
  `expired_at_time = now + expires_in` and writes the cache record. -/
def run (fuel : Nat) (now : Int) (op : Op) (w : World) :
    Except ClientError OpResult × World :=
  match fuel with
  | 0 => (.error .fuelExhausted, w)
  | f + 1 =>
    match op with
    | .opGetDevices => run f now (.opMakeApiRequest "GET" "/v1/apis/devices" none) w
    | .opMakeApiRequest method path payload =>
      match run f now .opEnsureValidToken w with
      | (.error e, w') => (.error e, w')
      | (.ok (.jsonRes _), w') => (.error .unmodelled, w')
      | (.ok (.tokRes tok), w') =>
        let w2 : World := { w' with apiCalls := w'.apiCalls ++ [⟨method, path, tok, payload⟩] }
        match w2.apiResponses with
        | [] => (.error .outOfResponses, w2)
        | r :: rest => run f now (.opHandleResponse r) { w2 with apiResponses := rest }
    | .opHandleResponse r =>
      if r.status = 200 then
        match r.contentType with
        | none => (.ok (.jsonRes (.obj [])), w)
        | some ct =>
          if ct = "" then (.ok (.jsonRes (.obj [])), w)
          else if List.isPrefixOf "application/json".toList ct.toList then
            match r.body with
            | some j => (.ok (.jsonRes j), w)
            | none => (.error .dataErrorDecode, w)
          else (.error (.dataErrorContentType ct), w)
      else if r.status = 401 then
        run f now .opGetDevices { w with access_token := none }
      else (.error (.apiError r.status), w)
    | .opEnsureValidToken =>
      let w1 : World :=
        if pyFalsyOpt w.access_token then
          { w with access_token := read_token_from_cache now w.cache }
        else w
      if pyFalsyOpt w1.access_token then
        match run f now .opFetchNewToken w1 with
        | (.error e, w2) => (.error e, w2)
        | (.ok (.tokRes _), w2) => (.error .unmodelled, w2)
        | (.ok (.jsonRes response), w2) =>
          match pyGetItem response "access_token" with
          | .error e => (.error e, w2)
          | .ok (.str s) =>
            (.ok (.tokRes s.toList), { w2 with access_token := some s.toList })
          | .ok _ => (.error .unmodelled, w2)
      else
        match w1.access_token with
        | some t => (.ok (.tokRes t), w1)
        | none => (.error .unmodelled, w1)
    | .opFetchNewToken =>
      let w1 : World := { w with oauthCalls := w.oauthCalls + 1 }
      match w1.oauthResponses with
      | [] => (.error .outOfResponses, w1)
      | r :: rest =>
        match run f now (.opHandleResponse r) { w1 with oauthResponses := rest } with
        | (.error e, w2) => (.error e, w2)
        | (.ok (.tokRes _), w2) => (.error .unmodelled, w2)
        | (.ok (.jsonRes response), w2) =>
          match pyIn "access_token" response with
          | .error e => (.error e, w2)
          | .ok false => (.error .authErrorTokenFormat, w2)
          | .ok true =>
            match pyIn "expires_in" response with
            | .error e => (.error e, w2)
            | .ok false => (.error .authErrorTokenFormat, w2)
            | .ok true =>
              match pyGetItem response "expires_in" with
              | .error e => (.error e, w2)
              | .ok expiresVal =>
                match pyAddTime now expiresVal with
                | .error e => (.error e, w2)
                | .ok expiredAt =>
                  match pyGetItem response "access_token" with
                  | .error e => (.error e, w2)
                  | .ok (.str s) =>
                    (.ok (.jsonRes response),
                      { w2 with cache := some (save_token_to_cache s.toList expiredAt) })
                  | .ok _ => (.error .unmodelled, w2)

/-- Coerce an operation result to the JSON result the API methods return. -/
def expectJson : Except ClientError OpResult × World → Except ClientError Json × World
  | (.ok (.jsonRes j), w) => (.ok j, w)
  | (.ok (.tokRes _), w) => (.error .unmodelled, w)
  | (.error e, w) => (.error e, w)

/-- `QingpingClient.get_devices`. -/
def get_devices (fuel : Nat) (now : Int) (w : World) : Except ClientError Json × World :=
  expectJson (run fuel now .opGetDevices w)

/-- `QingpingClient._make_api_request`. -/
def make_api_request (fuel : Nat) (now : Int) (method path : String)
    (payload : Option Json) (w : World) : Except ClientError Json × World :=
  expectJson (run fuel now (.opMakeApiRequest method path payload) w)

/-- `QingpingClient._handle_response`. -/
def handle_response (fuel : Nat) (now : Int) (r : Response) (w : World) :
    Except ClientError Json × World :=
  expectJson (run fuel now (.opHandleResponse r) w)

/-- `QingpingClient._ensure_valid_token`. -/
def ensure_valid_token (fuel : Nat) (now : Int) (w : World) :
    Except ClientError PyStr × World :=
  match run fuel now .opEnsureValidToken w with
  | (.ok (.tokRes t), w') => (.ok t, w')
  | (.ok (.jsonRes _), w') => (.error .unmodelled, w')
  | (.error e, w') => (.error e, w')

/-- `QingpingClient._fetch_new_token`. -/
def fetch_new_token (fuel : Nat) (now : Int) (w : World) : Except ClientError Json × World :=
  expectJson (run fuel now .opFetchNewToken w)

/-- Errors of `update_device_settings`: the validation `ValueError`s are a
distinct Python exception class from everything the request machinery raises
(`_make_api_request` and below contain no `raise ValueError` site), so the
two are separated by constructor. -/
inductive UpdateError where
  | validation (msg : String)
  | client (e : ClientError)

/-- Embed a request-machinery outcome into the settings call's error type. -/
def liftClient : Except ClientError Json × World → Except UpdateError Json × World
  | (.ok j, w) => (.ok j, w)
  | (.error e, w) => (.error (.client e), w)

/-- `collect_interval is not None and (collect_interval < 60 or
collect_interval > 3600)` (and the same test for `report_interval`). -/
def intervalOutOfRange : Option Int → Bool
  | none => false
  | some v => decide (v < 60) || decide (v > 3600)

/-- `collect_interval is not None and report_interval is not None and
collect_interval > report_interval`. -/
def intervalOrderBad : Option Int → Option Int → Bool
  | some c, some rv => decide (c > rv)
  | _, _ => false

/-- The JSON payload `update_device_settings` builds: `mac`, `timestamp`
(milliseconds; time is modelled in whole seconds, so `now * 1000`), and the
optional interval fields in source order. -/
def settingsPayload (now : Int) (macs : List String) (ci ri : Option Int) : Json :=
  .obj ([("mac", .arr (macs.map .str)), ("timestamp", .num (now * 1000))]
    ++ (match ci with | some c => [("collect_interval", .num c)] | none => [])
    ++ (match ri with | some rv => [("report_interval", .num rv)] | none => []))

/-- `QingpingClient.update_device_settings`: the four validation checks in
source order (each raising `ValueError` before any request is sent), then the
PUT to the settings endpoint via `_make_api_request`. -/
def update_device_settings (fuel : Nat) (now : Int) (macs : List String)
    (ci ri : Option Int) (w : World) : Except UpdateError Json × World :=
  if macs.isEmpty then
    (.error (.validation "At least one MAC address must be provided"), w)
  else if intervalOutOfRange ci then
    (.error (.validation "collect_interval must be between 60 and 3600 seconds"), w)
  else if intervalOutOfRange ri then
    (.error (.validation "report_interval must be between 60 and 3600 seconds"), w)
  else if intervalOrderBad ci ri then
    (.error (.validation "collect_interval must be less than or equal to report_interval"), w)
  else
    liftClient (make_api_request fuel now "PUT" "/v1/apis/devices/settings"
      (some (settingsPayload now macs ci ri)) w)


/-! ### Concrete scenario worlds -/

/-- A sample bearer token. -/
def tokA : PyStr := "tokenA".toList

/-- A warm cache: the file holds `"1000:tokenA"`, unexpired for any
`now < 1000`. -/
def warmCache : Option PyStr := some (save_token_to_cache tokA 1000)

/-- A bare 401 response. -/
def r401 : Response := ⟨401, none, none⟩

/-- A well-formed devices response body. -/
def devicesJson : Json := .obj [("devices", .arr [])]

/-- A 200 devices response with a JSON content type. -/
def rOkDevices : Response := ⟨200, some "application/json", some devicesJson⟩

/-- A world with nothing scripted and no state. -/
def emptyWorld : World := ⟨none, none, [], [], [], 0⟩

/-- A fresh client (no in-memory token) with the warm cache and the given
scripted responses. -/
def mkWorld (api oauth : List Response) : World := ⟨none, warmCache, api, oauth, [], 0⟩

/-- Scenario for C1: the devices endpoint answers 401 three times. -/
def c1World : World := mkWorld [r401, r401, r401] []

/-- Scenario for the C2/C3 counterexamples: 401 on the first resource
request, 200 on the second. -/
def retryWorld : World := mkWorld [r401, rOkDevices] []

/-- Scenario for C7: the token endpoint answers 401; one devices response is
scripted to expose any resource request the token fetch triggers. -/
def c7World : World := mkWorld [rOkDevices] [r401]

/-- Scenario for the C8 counterexample: 200 with no `Content-Type` header. -/
def c8World : World := mkWorld [⟨200, none, none⟩] []

example : (get_devices 50 0 c1World).1 = .error .outOfResponses := by rfl
example : (get_devices 50 0 c1World).2.apiCalls.length = 4 := by rfl
example : (get_devices 50 0 retryWorld).1 = .ok devicesJson := by rfl
example : (get_devices 50 0 retryWorld).2.oauthCalls = 0 := by rfl
example : (fetch_new_token 50 0 c7World).1 = .error .authErrorTokenFormat := by rfl
example : (fetch_new_token 50 0 c7World).2.apiCalls.length = 1 := by rfl
example : (get_devices 50 0 c8World).1 = .ok (.obj []) := by rfl
example :
    (update_device_settings 50 0 ["aa:bb"] (some 60) (some 120) retryWorld).2.apiCalls.map
      (fun c => (c.method, c.path)) =
    [("PUT", "/v1/apis/devices/settings"), ("GET", "/v1/apis/devices")] := by rfl

/-! ### String lemmas for the cache round-trip -/

theorem mem_of_getLastQ : ∀ (l : PyStr) (c : Char), l.getLast? = some c → c ∈ l := by
  intro l
  induction l with
  | nil => intro c h; simp [List.getLast?] at h
  | cons a rest ih =>
    intro c h
    cases rest with
    | nil => simp [List.getLast?] at h; simp [h]
    | cons b rest2 =>
      have : (b :: rest2).getLast? = some c := by
        simpa [List.getLast?_cons_cons] using h
      exact List.mem_cons_of_mem a (ih c this)

theorem dropWhile_eq_self_of_headQ (p : Char → Bool) (l : PyStr)
    (h : ∀ c, l.head? = some c → p c = false) : l.dropWhile p = l := by
  cases l with
  | nil => rfl
  | cons c rest => simp [List.dropWhile_cons, h c rfl]

theorem pyStrip_eq_self (l : PyStr)
    (hh : ∀ c, l.head? = some c → pyWs c = false)
    (hl : ∀ c, l.getLast? = some c → pyWs c = false) : pyStrip l = l := by
  unfold pyStrip
  rw [dropWhile_eq_self_of_headQ _ _ hh,
    dropWhile_eq_self_of_headQ _ _ (by simpa [List.head?_reverse] using hl),
    List.reverse_reverse]

theorem pyStrip_eq_self_of_forall (l : PyStr) (h : ∀ c ∈ l, pyWs c = false) :
    pyStrip l = l :=
  pyStrip_eq_self l
    (fun c hc => h c (by cases l with | nil => simp at hc | cons a r => simp at hc; simp [hc]))
    (fun c hc => h c (mem_of_getLastQ l c hc))

theorem pySplitAux_no_sep (sep : Char) (l : PyStr) :
    ∀ acc, (∀ c ∈ l, c ≠ sep) → pySplitAux sep l acc = [acc.reverse ++ l] := by
  induction l with
  | nil => intro acc _; simp [pySplitAux]
  | cons c rest ih =>
    intro acc h
    have hc : c ≠ sep := h c (by simp)
    simp [pySplitAux, hc, ih (c :: acc) (fun d hd => h d (by simp [hd]))]

theorem pySplit_no_sep (sep : Char) (l : PyStr) (h : ∀ c ∈ l, c ≠ sep) :
    pySplit sep l = [l] := by
  simpa using pySplitAux_no_sep sep l [] h

theorem pySplitAux_sep_append (sep : Char) (a b : PyStr)
    (ha : ∀ c ∈ a, c ≠ sep) (hb : ∀ c ∈ b, c ≠ sep) :
    ∀ acc, pySplitAux sep (a ++ sep :: b) acc = [acc.reverse ++ a, b] := by
  induction a with
  | nil => intro acc; simp [pySplitAux, pySplitAux_no_sep sep b [] hb]
  | cons c rest ih =>
    intro acc
    have hc : c ≠ sep := ha c (by simp)
    simp [pySplitAux, hc, ih (fun d hd => ha d (by simp [hd])) (c :: acc)]

theorem pySplit_sep_append (sep : Char) (a b : PyStr)
    (ha : ∀ c ∈ a, c ≠ sep) (hb : ∀ c ∈ b, c ≠ sep) :
    pySplit sep (a ++ sep :: b) = [a, b] := by
  simpa using pySplitAux_sep_append sep a b ha hb []

theorem normalizeNewlines_eq_self : ∀ (l : PyStr), (∀ c ∈ l, c ≠ '\r') →
    normalizeNewlines l = l := by
  intro l
  induction l with
  | nil => intro _; rfl
  | cons c rest ih =>
    intro h
    cases rest with
    | nil => simp [normalizeNewlines, h c (by simp)]
    | cons c2 rest2 =>
      simp only [normalizeNewlines, if_neg (h c (by simp))]
      rw [ih (fun d hd => h d (by simp [hd]))]

/-! ### Decimal printing parses back to the same integer -/

theorem digitCh_props : ∀ d, d < 10 →
    (digitCh d).isDigit = true ∧ pyWs (digitCh d) = false ∧ digitCh d ≠ ':' ∧
    digitCh d ≠ '-' ∧ digitCh d ≠ '+' ∧ digitCh d ≠ '_' ∧ digitCh d ≠ '\r' ∧
    digitCh d ≠ '\n' ∧ (digitCh d).toNat = 48 + d := by decide

theorem mem_natDigitsAux : ∀ (f n : Nat), n < f →
    ∀ c ∈ natDigitsAux f n, ∃ d, d < 10 ∧ c = digitCh d := by
  intro f
  induction f with
  | zero => intro n hn; omega
  | succ f ih =>
    intro n hn c hc
    by_cases h10 : n < 10
    · simp [natDigitsAux, h10] at hc
      exact ⟨n, h10, hc⟩
    · simp only [natDigitsAux, if_neg h10, List.mem_append, List.mem_singleton] at hc
      rcases hc with hc | hc
      · have hdiv : n / 10 < f := by
          have := Nat.div_lt_self (by omega : 0 < n) (by omega : 1 < 10)
          omega
        exact ih (n / 10) hdiv c hc
      · exact ⟨n % 10, Nat.mod_lt _ (by omega), hc⟩

theorem mem_natDigits (n : Nat) : ∀ c ∈ natDigits n, ∃ d, d < 10 ∧ c = digitCh d :=
  mem_natDigitsAux (n + 1) n (by omega)

/-- One step of the accumulator in `digitsParseAux`. -/
def digitVal (acc : Nat) (c : Char) : Nat := acc * 10 + (c.toNat - 48)

theorem digitsParseAux_digits : ∀ (l : PyStr),
    (∀ c ∈ l, ∃ d, d < 10 ∧ c = digitCh d) →
    ∀ acc, digitsParseAux acc l = some (l.foldl digitVal acc) := by
  intro l
  induction l with
  | nil => intro _ acc; simp [digitsParseAux]
  | cons c rest ih =>
    intro hl acc
    obtain ⟨d, hd, rfl⟩ := hl c (by simp)
    have hp := digitCh_props d hd
    have h1 : digitsParseAux acc (digitCh d :: rest) =
        digitsParseAux (acc * 10 + ((digitCh d).toNat - 48)) rest := by
      rw [digitsParseAux.eq_def]
      simp [hp.2.2.2.2.2.1, hp.1]
    have h2 : digitVal acc (digitCh d) = acc * 10 + ((digitCh d).toNat - 48) := rfl
    rw [h1, List.foldl_cons, h2]
    exact ih (fun e he => hl e (by simp [he])) _

theorem foldl_natDigitsAux : ∀ (f n : Nat), n < f → ∀ acc,
    (natDigitsAux f n).foldl digitVal acc =
      acc * 10 ^ (natDigitsAux f n).length + n := by
  intro f
  induction f with
  | zero => intro n hn; omega
  | succ f ih =>
    intro n hn acc
    by_cases h10 : n < 10
    · simp [natDigitsAux, h10, digitVal, (digitCh_props n h10).2.2.2.2.2.2.2.2]
    · have hdiv : n / 10 < f := by
        have := Nat.div_lt_self (by omega : 0 < n) (by omega : 1 < 10)
        omega
      simp only [natDigitsAux, if_neg h10, List.foldl_append, List.length_append,
        List.foldl_cons, List.foldl_nil, List.length_cons, List.length_nil]
      rw [ih (n / 10) hdiv acc]
      simp only [digitVal, (digitCh_props (n % 10) (Nat.mod_lt _ (by omega))).2.2.2.2.2.2.2.2]
      have hdm := Nat.div_add_mod n 10
      have hpow : (10 : Nat) ^ ((natDigitsAux f (n / 10)).length + 1) =
          10 ^ (natDigitsAux f (n / 10)).length * 10 := by
        rw [pow_succ]
      rw [hpow]
      have h48 : 48 + n % 10 - 48 = n % 10 := by omega
      calc (acc * 10 ^ (natDigitsAux f (n / 10)).length + n / 10) * 10 + (48 + n % 10 - 48)
          = acc * (10 ^ (natDigitsAux f (n / 10)).length * 10) +
              (10 * (n / 10) + n % 10) := by rw [h48]; ring
        _ = acc * (10 ^ (natDigitsAux f (n / 10)).length * 10) + n := by rw [hdm]

theorem natDigitsAux_ne_nil (f n : Nat) : natDigitsAux (f + 1) n ≠ [] := by
  by_cases h : n < 10 <;> simp [natDigitsAux, h]

theorem digitsParse_natDigits (n : Nat) : digitsParse (natDigits n) = some n := by
  obtain ⟨c, rest, hEq⟩ := List.exists_cons_of_ne_nil (natDigitsAux_ne_nil n n)
  have hmem := mem_natDigits n
  obtain ⟨d, hd, hcd⟩ := hmem c (by rw [natDigits, hEq]; simp)
  have hp := digitCh_props d hd
  rw [natDigits, hEq, digitsParse]
  rw [if_neg (by rw [hcd]; exact hp.2.2.2.2.2.1), if_pos (by rw [hcd]; exact hp.1)]
  have hrest : ∀ e ∈ rest, ∃ d', d' < 10 ∧ e = digitCh d' := by
    intro e he
    exact hmem e (by rw [natDigits, hEq]; simp [he])
  rw [digitsParseAux_digits rest hrest (c.toNat - 48)]
  have hfold : (c :: rest).foldl digitVal 0 = rest.foldl digitVal (c.toNat - 48) := by
    simp [List.foldl_cons, digitVal]
  have hval : (natDigits n).foldl digitVal 0 = 0 * 10 ^ (natDigits n).length + n := by
    rw [natDigits]
    exact foldl_natDigitsAux (n + 1) n (by omega) 0
  rw [natDigits, hEq] at hval
  rw [← hfold, hval]
  simp

theorem pyWs_digits_forall (n : Nat) : ∀ c ∈ natDigits n, pyWs c = false := by
  intro c hc
  obtain ⟨d, hd, rfl⟩ := mem_natDigits n c hc
  exact (digitCh_props d hd).2.1

theorem pyIntParse_intChars (i : Int) : pyIntParse (intChars i) = some i := by
  by_cases hneg : i < 0
  · have hch : intChars i = '-' :: natDigits (-i).toNat := by
      simp [intChars, hneg]
    have hstrip : pyStrip (intChars i) = intChars i := by
      apply pyStrip_eq_self_of_forall
      intro c hc
      rw [hch] at hc
      rcases List.mem_cons.mp hc with rfl | hc
      · decide
      · exact pyWs_digits_forall _ c hc
    have hres : pyIntParse (intChars i) =
        (digitsParse (natDigits (-i).toNat)).map (fun n => -(Int.ofNat n)) := by
      rw [pyIntParse.eq_def, hstrip, hch]
      rfl
    rw [hres, digitsParse_natDigits]
    simp only [Option.map_some', Option.some.injEq, Int.ofNat_eq_coe]
    omega
  · have hch : intChars i = natDigits i.toNat := by
      simp [intChars, hneg]
    have hstrip : pyStrip (intChars i) = intChars i := by
      apply pyStrip_eq_self_of_forall
      intro c hc
      rw [hch] at hc
      exact pyWs_digits_forall _ c hc
    obtain ⟨c, rest, hEq⟩ : ∃ c rest, natDigits i.toNat = c :: rest :=
      List.exists_cons_of_ne_nil (natDigitsAux_ne_nil _ _)
    obtain ⟨d, hd, hcd⟩ := mem_natDigits i.toNat c (by rw [hEq]; simp)
    have hp := digitCh_props d hd
    have h1 : c ≠ '-' := by rw [hcd]; exact hp.2.2.2.1
    have h2 : c ≠ '+' := by rw [hcd]; exact hp.2.2.2.2.1
    have hres : pyIntParse (intChars i) =
        (digitsParse (c :: rest)).map (fun n => Int.ofNat n) := by
      rw [pyIntParse.eq_def, hstrip, hch, hEq]
      simp [h1, h2]
    rw [hres, ← hEq, digitsParse_natDigits]
    simp only [Option.map_some', Option.some.injEq, Int.ofNat_eq_coe]
    omega

/-! ### Cache round-trip -/

theorem mem_of_headQ (l : PyStr) (c : Char) (h : l.head? = some c) : c ∈ l := by
  cases l with
  | nil => simp at h
  | cons a r =>
    simp at h
    subst h
    exact List.mem_cons_self _ _

theorem getLastQ_isSome : ∀ (l : PyStr) (a : Char), ∃ x, (a :: l).getLast? = some x := by
  intro l
  induction l with
  | nil => intro a; exact ⟨a, rfl⟩
  | cons b r ih => intro a; rw [List.getLast?_cons_cons]; exact ih b

theorem mem_intChars (i : Int) : ∀ c ∈ intChars i, c = '-' ∨ ∃ d, d < 10 ∧ c = digitCh d := by
  intro c hc
  by_cases hneg : i < 0
  · simp only [intChars, if_pos hneg] at hc
    rcases List.mem_cons.mp hc with rfl | hc
    · exact Or.inl rfl
    · exact Or.inr (mem_natDigits _ c hc)
  · simp only [intChars, if_neg hneg] at hc
    exact Or.inr (mem_natDigits _ c hc)

theorem intChars_char_facts (i : Int) : ∀ c ∈ intChars i,
    pyWs c = false ∧ c ≠ ':' ∧ c ≠ '\n' ∧ c ≠ '\r' := by
  intro c hc
  rcases mem_intChars i c hc with rfl | ⟨d, hd, rfl⟩
  · exact ⟨by decide, by decide, by decide, by decide⟩
  · have hp := digitCh_props d hd
    exact ⟨hp.2.1, hp.2.2.1, hp.2.2.2.2.2.2.2.1, hp.2.2.2.2.2.2.1⟩

theorem intChars_ne_nil (i : Int) : intChars i ≠ [] := by
  by_cases hneg : i < 0
  · simp [intChars, hneg]
  · simp only [intChars, if_neg hneg]
    exact natDigitsAux_ne_nil _ _

theorem readLoop_single (now : Int) (line e t : PyStr) (expiredAt : Int)
    (hsplit : pySplit ':' (pyStrip line) = [e, t])
    (hparse : pyIntParse e = some expiredAt) :
    readLoop now [line] = if now < expiredAt then some t else none := by
  rw [readLoop.eq_def]
  simp only [hsplit, hparse]
  have hnil : readLoop now ([] : List PyStr) = none := rfl
  rw [hnil]

/-- Claim C5 (amended): writing a token record and reading it back yields the
token while the current time is strictly before the expiry and absent
afterwards — but only for token values that contain no colon, newline or
carriage return and whose last character is not Python whitespace (the
record format cannot carry other tokens: the reader splits the line on every
colon and strips the line's ends, and the token is the line's tail; its
leading or interior whitespace is interior to the line and survives). -/
theorem c5_amended_cache_roundtrip (tok : PyStr) (exp now : Int) (hcolon : ':' ∉ tok)
    (hnl : '\n' ∉ tok) (hcr : '\r' ∉ tok)
    (hl : ∀ c, tok.getLast? = some c → pyWs c = false) :
    read_token_from_cache now (some (save_token_to_cache tok exp)) =
      if now < exp then some tok else none := by
  have hfacts := intChars_char_facts exp
  have hsave : save_token_to_cache tok exp = intChars exp ++ ':' :: tok := rfl
  have hnoCr : ∀ c ∈ intChars exp ++ ':' :: tok, c ≠ '\r' := by
    intro c hc
    rcases List.mem_append.mp hc with hc | hc
    · exact (hfacts c hc).2.2.2
    · rcases List.mem_cons.mp hc with rfl | hc
      · decide
      · intro h; exact hcr (h ▸ hc)
  have hnoNl : ∀ c ∈ intChars exp ++ ':' :: tok, c ≠ '\n' := by
    intro c hc
    rcases List.mem_append.mp hc with hc | hc
    · exact (hfacts c hc).2.2.1
    · rcases List.mem_cons.mp hc with rfl | hc
      · decide
      · intro h; exact hnl (h ▸ hc)
  have hhead : ∀ c, (intChars exp ++ ':' :: tok).head? = some c → pyWs c = false := by
    intro c hc
    rw [List.head?_append_of_ne_nil _ (intChars_ne_nil exp)] at hc
    exact (hfacts c (mem_of_headQ _ c hc)).1
  have hlast : ∀ c, (intChars exp ++ ':' :: tok).getLast? = some c → pyWs c = false := by
    intro c hc
    obtain ⟨x, hx⟩ := getLastQ_isSome tok ':'
    have hxw : pyWs x = false := by
      cases tok with
      | nil =>
        have hx' : x = ':' := by simpa [List.getLast?] using hx.symm
        subst hx'
        decide
      | cons t ts =>
        rw [List.getLast?_cons_cons] at hx
        exact hl x hx
    rw [List.getLast?_append, hx] at hc
    have hc' : x = c := by simpa using hc
    exact hc' ▸ hxw
  have hstrip : pyStrip (intChars exp ++ ':' :: tok) = intChars exp ++ ':' :: tok :=
    pyStrip_eq_self _ hhead hlast
  have hsplit : pySplit ':' (pyStrip (intChars exp ++ ':' :: tok)) = [intChars exp, tok] := by
    rw [hstrip]
    exact pySplit_sep_append ':' _ _ (fun c hc => (hfacts c hc).2.1)
      (fun c hc h => hcolon (h ▸ hc))
  have step1 : read_token_from_cache now (some (save_token_to_cache tok exp)) =
      readLoop now (pySplit '\n' (normalizeNewlines (save_token_to_cache tok exp))) := rfl
  rw [step1, hsave, normalizeNewlines_eq_self _ hnoCr, pySplit_no_sep '\n' _ hnoNl]
  exact readLoop_single now _ _ _ exp hsplit (pyIntParse_intChars exp)

/-! ### Validator characterization -/

/-- The rejection condition of claim C4, stated from the claim's words (for
comparison against the source-derived checks in `update_device_settings`):
empty MAC list, a supplied interval outside the inclusive range 60–3600, or
both intervals supplied with the collect interval above the report
interval. -/
def specSettingsRejected (macs : List String) (ci ri : Option Int) : Prop :=
  macs = []
  ∨ (∃ v, ci = some v ∧ (v < 60 ∨ 3600 < v))
  ∨ (∃ v, ri = some v ∧ (v < 60 ∨ 3600 < v))
  ∨ (∃ c rv, ci = some c ∧ ri = some rv ∧ rv < c)

theorem intervalOutOfRange_iff (o : Option Int) :
    intervalOutOfRange o = true ↔ ∃ v, o = some v ∧ (v < 60 ∨ 3600 < v) := by
  cases o with
  | none => simp [intervalOutOfRange]
  | some v => simp [intervalOutOfRange]

theorem intervalOrderBad_iff (ci ri : Option Int) :
    intervalOrderBad ci ri = true ↔ ∃ c rv, ci = some c ∧ ri = some rv ∧ rv < c := by
  cases ci <;> cases ri <;> simp [intervalOrderBad]

/-! ### General 401 and terminal-response behaviour -/

theorem ensure_cache_hit (fuel : Nat) (now : Int) (t : PyStr) (cache : Option PyStr)
    (ht : read_token_from_cache now cache = some t) (hne : t ≠ [])
    (rs oRs : List Response) (calls : List ApiCall) (oc : Nat) :
    ensure_valid_token (fuel + 1) now ⟨none, cache, rs, oRs, calls, oc⟩
      = (.ok t, ⟨some t, cache, rs, oRs, calls, oc⟩) := by
  cases t with
  | nil => exact absurd rfl hne
  | cons a l =>
    unfold ensure_valid_token
    simp [run, pyFalsyOpt, ht]

/-- Claim C4: `update_device_settings` raises its validation `ValueError`
— and leaves the world untouched, so no request of any kind is sent — exactly
when the MAC list is empty, a supplied interval lies outside the inclusive
range 60–3600, or both intervals are supplied with the collect interval above
the report interval; in every other case no validation error can arise (the
boundary instances 59/60/3600/3601 and the ordering pair 120/60 follow by
instantiation). -/
theorem c4_validation_iff (fuel : Nat) (now : Int) (macs : List String)
    (ci ri : Option Int) (w : World) :
    ((∃ msg, (update_device_settings fuel now macs ci ri w).1 =
        .error (.validation msg)) ↔ specSettingsRejected macs ci ri)
    ∧ (specSettingsRejected macs ci ri →
        (update_device_settings fuel now macs ci ri w).2 = w) := by
  by_cases h1 : macs.isEmpty
  · have hm : macs = [] := by
      cases macs with
      | nil => rfl
      | cons a l => simp at h1
    refine ⟨⟨fun _ => Or.inl hm, fun _ => ⟨"At least one MAC address must be provided", ?_⟩⟩,
      fun _ => ?_⟩ <;> simp [update_device_settings, h1]
  · by_cases h2 : intervalOutOfRange ci
    · refine ⟨⟨fun _ => Or.inr (Or.inl ((intervalOutOfRange_iff ci).mp h2)),
        fun _ => ⟨"collect_interval must be between 60 and 3600 seconds", ?_⟩⟩,
        fun _ => ?_⟩ <;> simp [update_device_settings, h1, h2]
    · by_cases h3 : intervalOutOfRange ri
      · refine ⟨⟨fun _ => Or.inr (Or.inr (Or.inl ((intervalOutOfRange_iff ri).mp h3))),
          fun _ => ⟨"report_interval must be between 60 and 3600 seconds", ?_⟩⟩,
          fun _ => ?_⟩ <;> simp [update_device_settings, h1, h2, h3]
      · by_cases h4 : intervalOrderBad ci ri
        · refine ⟨⟨fun _ => Or.inr (Or.inr (Or.inr ((intervalOrderBad_iff ci ri).mp h4))),
            fun _ => ⟨"collect_interval must be less than or equal to report_interval", ?_⟩⟩,
            fun _ => ?_⟩ <;> simp [update_device_settings, h1, h2, h3, h4]
        · have hnospec : ¬ specSettingsRejected macs ci ri := by
            rintro (hm | hci | hri | hord)
            · rw [hm] at h1; exact h1 rfl
            · exact h2 ((intervalOutOfRange_iff ci).mpr hci)
            · exact h3 ((intervalOutOfRange_iff ri).mpr hri)
            · exact h4 ((intervalOrderBad_iff ci ri).mpr hord)
          refine ⟨⟨fun hex => ?_, fun hspec => absurd hspec hnospec⟩,
            fun hspec => absurd hspec hnospec⟩
          exfalso
          obtain ⟨msg, hmsg⟩ := hex
          simp only [update_device_settings, if_neg h1, if_neg h2, if_neg h3, if_neg h4] at hmsg
          rcases hmk : make_api_request fuel now "PUT" "/v1/apis/devices/settings"
            (some (settingsPayload now macs ci ri)) w with ⟨res, w'⟩
          rw [hmk] at hmsg
          cases res <;> simp [liftClient] at hmsg

/-- Claim C3 (amended): a 401 clears only the in-memory token (the cache file
is untouched) and continues as a `get_devices` call, and the token resolution
of that retry re-reads the cache first: when the cached record is still
unexpired, the very token just rejected is returned again with no token
exchange (`oauthCalls` and the scripted token responses are unchanged); a
fresh exchange happens only when the cache misses. -/
theorem c3_amended_retry_rereads_cache (fuel : Nat) (now : Int) (r : Response)
    (hr : r.status = 401) (t : PyStr) (hne : t ≠ [])
    (tok0 cache : Option PyStr) (rs oRs : List Response) (calls : List ApiCall) (oc : Nat)
    (ht : read_token_from_cache now cache = some t) :
    handle_response (fuel + 1) now r ⟨tok0, cache, rs, oRs, calls, oc⟩
      = get_devices fuel now ⟨none, cache, rs, oRs, calls, oc⟩
    ∧ ensure_valid_token (fuel + 1) now ⟨none, cache, rs, oRs, calls, oc⟩
      = (.ok t, ⟨some t, cache, rs, oRs, calls, oc⟩) := by
  constructor
  · obtain ⟨st, ct0, bd⟩ := r
    have hst : st = 401 := hr
    subst hst
    rfl
  · exact ensure_cache_hit fuel now t cache ht hne rs oRs calls oc

/-! ### Claim theorems: concrete scenarios and witnesses -/

/-- Claim C1 (code defect): with an unexpired cached token and a devices
endpoint that answers 401 three times, the client sends a fourth resource
request instead of terminating after the second 401: the 401 branch of
`_handle_response` recurses into `get_devices` with no retry cap, and no
token refresh ever occurs because each retry re-reads the same unexpired
cache record (every request carries the same rejected bearer token). -/
theorem c1_persistent_401_sends_further_requests :
    (get_devices 50 0 c1World).1 = .error .outOfResponses
    ∧ (get_devices 50 0 c1World).2.apiCalls.length = 4
    ∧ (get_devices 50 0 c1World).2.oauthCalls = 0
    ∧ (get_devices 50 0 c1World).2.apiCalls.map ApiCall.bearer =
        [tokA, tokA, tokA, tokA] :=
  ⟨rfl, rfl, rfl, rfl⟩

/-- Claim C3 (counterexample): after the first attempt is rejected with 401,
the retried request carries the very same bearer token, read back from the
cache file that supplied the rejected token, and no token exchange is ever
performed. -/
theorem c3_counterexample_retry_reuses_cached_token :
    (get_devices 50 0 retryWorld).1 = .ok devicesJson
    ∧ (get_devices 50 0 retryWorld).2.apiCalls.map ApiCall.bearer = [tokA, tokA]
    ∧ (get_devices 50 0 retryWorld).2.oauthCalls = 0 :=
  ⟨rfl, rfl, rfl⟩

/-- Claim C3 (amended, witness): the amended statement applied to a concrete
401 response and the warm cache. -/
theorem c3_amended_witness :
    handle_response 5 0 r401 ⟨some tokA, warmCache, [], [], [], 0⟩
      = get_devices 4 0 ⟨none, warmCache, [], [], [], 0⟩
    ∧ ensure_valid_token 5 0 ⟨none, warmCache, [], [], [], 0⟩
      = (.ok tokA, ⟨some tokA, warmCache, [], [], [], 0⟩) :=
  c3_amended_retry_rereads_cache 4 0 r401 rfl tokA (by decide) (some tokA) warmCache
    [] [] [] 0 rfl

/-- Claim C4 (witness): the validation characterization applied to an
out-of-range collect interval of 59 seconds. -/
theorem c4_validation_witness :
    (∃ msg, (update_device_settings 3 0 ["aa:bb"] (some 59) none emptyWorld).1 =
        .error (.validation msg))
    ∧ (update_device_settings 3 0 ["aa:bb"] (some 59) none emptyWorld).2 = emptyWorld := by
  have h := c4_validation_iff 3 0 ["aa:bb"] (some 59) none emptyWorld
  have hspec : specSettingsRejected ["aa:bb"] (some 59) none :=
    Or.inr (Or.inl ⟨59, rfl, Or.inl (by omega)⟩)
  exact ⟨h.1.mpr hspec, h.2 hspec⟩

/-- Claim C5 (counterexample): a token value containing a colon does not
round-trip: `"a:b"` written with an unexpired expiry reads back as a cache
miss, because the reader splits the record on every colon and the
three-field unpacking fails. -/
theorem c5_counterexample_colon_token :
    read_token_from_cache 0 (some (save_token_to_cache "a:b".toList 100)) = none
    ∧ (0 : Int) < 100 :=
  ⟨rfl, by omega⟩

/-- Claim C5 (amended, witness): the round-trip applied to the token
`"tokenA"` with expiry 100 at time 0. -/
theorem c5_amended_witness :
    read_token_from_cache 0 (some (save_token_to_cache "tokenA".toList 100)) =
      if (0 : Int) < 100 then some "tokenA".toList else none :=
  c5_amended_cache_roundtrip "tokenA".toList 100 0 (by decide) (by decide) (by decide)
    (by
      intro c hc
      have h : ("tokenA".toList.getLast?) = some 'A' := rfl
      rw [h] at hc
      injection hc with h2
      subst h2
      decide)

/-- Claim C6 (code defect at the failing input): a cache file consisting of
the single byte 0xFF is not valid UTF-8, so the text-mode read raises
`UnicodeDecodeError` (uncaught: the outer handler catches only `IOError` and
the inner one only `ValueError`/`IndexError` inside the loop) instead of
returning a cache miss; textual garbage, a record with no colon and a
non-integer expiry do yield a miss without an exception. -/
theorem c6_cache_read_bytes :
    read_token_from_cache_bytes 0 [255] = .error .unicodeDecodeError
    ∧ read_token_from_cache_bytes 0 ("123456".toList.map Char.toNat) = .ok none
    ∧ read_token_from_cache_bytes 0 ("abc:tok".toList.map Char.toNat) = .ok none :=
  ⟨rfl, rfl, rfl⟩

/-- Claim C7 (code defect): when the token-exchange POST is answered with
401, `_fetch_new_token` does not fail immediately with an auth error —
`_handle_response` resets the token and calls `self.get_devices()`, so with a
warm cache the client issues a `GET /v1/apis/devices` from inside the token
fetch, and only afterwards fails on the devices body lacking the token
fields. -/
theorem c7_token_fetch_401_triggers_devices_call :
    (fetch_new_token 50 0 c7World).1 = .error .authErrorTokenFormat
    ∧ (fetch_new_token 50 0 c7World).2.apiCalls.map (fun c => (c.method, c.path)) =
        [("GET", "/v1/apis/devices")]
    ∧ (fetch_new_token 50 0 c7World).2.oauthCalls = 1 :=
  ⟨rfl, rfl, rfl⟩

/-- Claim C8 (counterexample): a 200 devices response carrying no
`Content-Type` header is returned as an empty-object success, not rejected
as a data error. -/
theorem c8_counterexample_missing_content_type_success :
    (get_devices 50 0 c8World).1 = .ok (.obj []) := rfl

/-- Claim C8 (amended): for a `get_devices` response, a 200 with a missing or
empty content type yields an empty-object success; a 200 with a present
non-JSON content type is a terminal content-type data error; a 200 with a
JSON content type but an undecodable body is a terminal decode data error;
any other non-200, non-401 status is a terminal API error — and in each of
these cases the world is unchanged, so nothing is retried. -/
theorem c8_amended_terminal_responses (fuel : Nat) (now : Int) (r : Response) (w : World) :
    (r.status = 200 → r.contentType = none →
        handle_response (fuel + 1) now r w = (.ok (.obj []), w))
    ∧ (r.status = 200 → ∀ ct, r.contentType = some ct → ct ≠ "" →
        List.isPrefixOf "application/json".toList ct.toList = false →
        handle_response (fuel + 1) now r w = (.error (.dataErrorContentType ct), w))
    ∧ (r.status = 200 → ∀ ct, r.contentType = some ct → ct ≠ "" →
        List.isPrefixOf "application/json".toList ct.toList = true → r.body = none →
        handle_response (fuel + 1) now r w = (.error .dataErrorDecode, w))
    ∧ (r.status ≠ 200 → r.status ≠ 401 →
        handle_response (fuel + 1) now r w = (.error (.apiError r.status), w)) := by
  obtain ⟨st, ct0, bd⟩ := r
  refine ⟨?_, ?_, ?_, ?_⟩
  · intro hst hct
    simp only at hst hct
    subst hst; subst hct
    rfl
  · intro hst ct hct hne hpre
    simp only at hst hct
    subst hst; subst hct
    simp at hpre
    simp [handle_response, run, expectJson, hne, hpre]
  · intro hst ct hct hne hpre hbd
    simp only at hst hct hbd
    subst hst; subst hct; subst hbd
    simp at hpre
    simp [handle_response, run, expectJson, hne, hpre]
  · intro h200 h401
    simp only at h200 h401
    simp [handle_response, run, expectJson, h200, h401]


/-- Claim C8 (amended, witness): a 500 response is a terminal API error with
the world unchanged. -/
theorem c8_amended_witness :
    handle_response 1 0 ⟨500, none, none⟩ emptyWorld =
      (.error (.apiError 500), emptyWorld) :=
  (c8_amended_terminal_responses 0 0 ⟨500, none, none⟩ emptyWorld).2.2.2
    (by decide) (by decide)

/-- Claim C10: a 200 devices response with a JSON content type and a
decodable body is returned exactly as decoded, whatever its shape — the body
is quantified over all JSON values, so in particular one lacking a `devices`
field is still a success value. -/
theorem c10_get_devices_returns_decoded_body (fuel : Nat) (now : Int) (j : Json)
    (cache : Option PyStr) (rs oRs : List Response) (calls : List ApiCall) (oc : Nat) :
    get_devices (fuel + 3) now
        ⟨some tokA, cache, ⟨200, some "application/json", some j⟩ :: rs, oRs, calls, oc⟩
      = (.ok j,
        ⟨some tokA, cache, rs, oRs,
          calls ++ [⟨"GET", "/v1/apis/devices", tokA, none⟩], oc⟩) := rfl
